import Mathlib

/-
A shallow embedding of the go-ipset wrapper (src/ipset.go).

The wrapper is a thin binding around the external `ipset` binary: every
operation builds an argv vector, spawns the binary, and maps the process
outcome to a result.  We model the outside world (the OS together with the
external binary and the kernel state behind it) as an oracle `Env.world`
that, given the list of argv vectors already invoked (the history) and the
argv of the current invocation, returns the process outcome (the value of
`exec.Cmd.Run`, the bytes written to stdout, and the bytes written to
stderr).  XML decoding (`encoding/xml.Unmarshal` from the Go standard
library, external to this repository) is modelled by an oracle
`Env.decode` from the stdout text to a decoded `Sets` record or an error.

Every operation returns a `ProcResult`: the ordered list (`trace`) of argv
vectors it passed to the operating system, together with its Go-level
result (`Except String α`, where the `String` is the Go error message).
-/

namespace ipset

/-- Outcome of one subprocess invocation, as observed by `runWithOutput`:
`err` models the return value of `exec.Cmd.Run` (`none` = the process
started and exited with status zero; `some e` = a non-zero exit status or
a start failure, with `e` the Go error's own message), `stdout` the bytes
the invocation wrote to standard output, `stderr` the bytes it wrote to
standard error. -/
structure RunOutcome where
  err : Option String
  stdout : String
  stderr : String
  deriving DecidableEq

/-- One `<member>` element: Go struct `SetEntry` (XML plumbing field
`XMLName` omitted; `Elem` is the `elem` text). -/
structure SetEntry where
  Elem : String
  deriving DecidableEq

/-- The `<header>` block of a set listing: the anonymous header struct
nested in Go struct `Set`. -/
structure SetHeader where
  Family : String
  HashSize : Int
  Maxelem : Int
  MemSize : Int
  References : Int
  Numentries : Int
  deriving DecidableEq

/-- The `<members>` block: the anonymous members struct nested in Go
struct `Set`, wrapping the list of member entries. -/
structure SetMembers where
  Members : List SetEntry
  deriving DecidableEq

/-- One `<ipset>` record: Go struct `Set` (XML plumbing fields omitted). -/
structure Set where
  Name : String
  «Type» : String
  Revision : String
  Header : SetHeader
  Members : SetMembers
  deriving DecidableEq

/-- The top-level `<ipsets>` document: Go struct `Sets`. -/
structure Sets where
  Sets : List Set
  deriving DecidableEq

/-- An argv vector handed to the operating system. -/
abbrev Argv := List String

/-- A flat list of strings (entry lists, name lists). -/
abbrev StringList := List String

/-- A list of decoded set records. -/
abbrev SetList := List Set

/-- The environment the wrapper runs in: `world` models the OS plus the
external binary (history of previous argv vectors → current argv vector →
outcome), `decode` models `encoding/xml.Unmarshal` of the captured stdout
into a `Sets` document. -/
structure Env where
  world : List Argv → Argv → RunOutcome
  decode : String → Except String Sets

/-- The result of running a piece of wrapper code: the ordered argv
vectors it passed to the OS, and its Go-level return value. -/
structure ProcResult (α : Type) where
  trace : List Argv
  result : Except String α

deriving instance DecidableEq for Except

instance {α : Type} [DecidableEq α] : DecidableEq (ProcResult α) :=
  fun x y =>
    match x, y with
    | ⟨t1, r1⟩, ⟨t2, r2⟩ =>
      if h1 : t1 = t2 then
        if h2 : r1 = r2 then isTrue (by subst h1; subst h2; rfl)
        else isFalse (by intro h; cases h; exact h2 rfl)
      else isFalse (by intro h; cases h; exact h1 rfl)

/-- A wrapper computation: from the invocation history to its result. -/
abbrev Proc (α : Type) := List Argv → ProcResult α

/-- Go struct `IPSet`: holds the resolved path of the external binary. -/
structure IPSet where
  Path : String
  deriving DecidableEq

/-- Models `strconv.FormatInt(i, 10)`: decimal rendering of an integer. -/
def formatInt10 (i : Int) : String := toString i

/-- Go `runWithOutput`: prepends `set.Path` to the argv (the Go code sets
`cmd.Args = append([]string{set.Path}, args...)`), runs the process, and
on any `cmd.Run()` error returns `errors.New(stderr.String())` — the raw
stderr text, the process error itself being discarded.  On success the
captured stdout is what the caller's buffer received. -/
def IPSet.runWithOutput (set : IPSet) (env : Env) (args : List String) : Proc String :=
  fun hist =>
    let argv := set.Path :: args
    let o := env.world hist argv
    { trace := [argv],
      result := match o.err with
        | some _ => .error o.stderr
        | none => .ok o.stdout }

/-- Go `run`: `runWithOutput` with a nil stdout writer (output discarded). -/
def IPSet.run (set : IPSet) (env : Env) (args : List String) : Proc Unit :=
  fun hist =>
    let r := (set.runWithOutput env args) hist
    { trace := r.trace,
      result := match r.result with
        | .error e => .error e
        | .ok _ => .ok () }

/-- Go `Create`: `create <name> <type> [opts...]`. -/
def IPSet.Create (set : IPSet) (env : Env) (name typ : String) (options : List String) : Proc Unit :=
  set.run env (["create", name, typ] ++ options)

/-- Go `Add`: `add <name> <entry> [opts...]`. -/
def IPSet.Add (set : IPSet) (env : Env) (name entry : String) (options : List String) : Proc Unit :=
  set.run env (["add", name, entry] ++ options)

/-- Go `AddUnique`: `add <name> <entry> -exist [opts...]`. -/
def IPSet.AddUnique (set : IPSet) (env : Env) (name entry : String) (options : List String) : Proc Unit :=
  set.run env (["add", name, entry, "-exist"] ++ options)

/-- Go `Delete`: `del <name> <entry> [opts...]`. -/
def IPSet.Delete (set : IPSet) (env : Env) (name entry : String) (options : List String) : Proc Unit :=
  set.run env (["del", name, entry] ++ options)

/-- Go `Test`: `test <name> <entry> [opts...]`. -/
def IPSet.Test (set : IPSet) (env : Env) (name entry : String) (options : List String) : Proc Unit :=
  set.run env (["test", name, entry] ++ options)

/-- Go `Destroy`: `destroy <name>`. -/
def IPSet.Destroy (set : IPSet) (env : Env) (name : String) : Proc Unit :=
  set.run env ["destroy", name]

/-- Go `Save`: `save <name> -file <filename>`. -/
def IPSet.Save (set : IPSet) (env : Env) (name filename : String) : Proc Unit :=
  set.run env ["save", name, "-file", filename]

/-- Go `Restore`: `restore -file <filename>`. -/
def IPSet.Restore (set : IPSet) (env : Env) (filename : String) : Proc Unit :=
  set.run env ["restore", "-file", filename]

/-- Go `Flush`: `flush <name>`. -/
def IPSet.Flush (set : IPSet) (env : Env) (name : String) : Proc Unit :=
  set.run env ["flush", name]

/-- Go `Rename`: `rename <from> <to>`. -/
def IPSet.Rename (set : IPSet) (env : Env) (from_ to_ : String) : Proc Unit :=
  set.run env ["rename", from_, to_]

/-- Go `Swap`: `swap <from> <to>`. -/
def IPSet.Swap (set : IPSet) (env : Env) (from_ to_ : String) : Proc Unit :=
  set.run env ["swap", from_, to_]

/-- Go `listXML`: builds `["list", "-o", "xml"] ++ args`, appends `"-t"`
when `suppressMembers`, runs with a capturing stdout buffer, then
unmarshals the captured bytes into a `Sets` document and returns its
record list. -/
def IPSet.listXML (set : IPSet) (env : Env) (suppressMembers : Bool) (args : List String) : Proc (List Set) :=
  fun hist =>
    let args1 := ["list", "-o", "xml"] ++ args
    let args2 := if suppressMembers then args1 ++ ["-t"] else args1
    let r := (set.runWithOutput env args2) hist
    match r.result with
    | .error e => { trace := r.trace, result := .error e }
    | .ok out =>
      match env.decode out with
      | .error e => { trace := r.trace, result := .error e }
      | .ok s => { trace := r.trace, result := .ok s.Sets }

/-- Go `List`: `listXML(suppressMembers, name)`; errors with
`"list named set return results not equal one"` when `len(sets) != 1`,
otherwise returns `sets[0]`. -/
def IPSet.List (set : IPSet) (env : Env) (name : String) (suppressMembers : Bool) : Proc Set :=
  fun hist =>
    let r := (set.listXML env suppressMembers [name]) hist
    match r.result with
    | .error e => { trace := r.trace, result := .error e }
    | .ok sets =>
      if h : sets.length = 1 then
        { trace := r.trace, result := .ok (sets.get ⟨0, by omega⟩) }
      else
        { trace := r.trace, result := .error "list named set return results not equal one" }

/-- Go `ListEntries`: `List(name, false)`, then collects `m.Elem` over
`s.Members.Members` in order. -/
def IPSet.ListEntries (set : IPSet) (env : Env) (name : String) : Proc StringList :=
  fun hist =>
    let r := (set.List env name false) hist
    match r.result with
    | .error e => { trace := r.trace, result := .error e }
    | .ok s => { trace := r.trace, result := .ok (s.Members.Members.map (fun m => m.Elem)) }

/-- Go `ListSets`: `listXML(suppressMembers)` with no extra args. -/
def IPSet.ListSets (set : IPSet) (env : Env) (suppressMembers : Bool) : Proc SetList :=
  set.listXML env suppressMembers []

/-- Go `ListSetNames`: `listXML(false, "-n")`, then collects `s.Name`
over the decoded records in order. -/
def IPSet.ListSetNames (set : IPSet) (env : Env) : Proc StringList :=
  fun hist =>
    let r := (set.listXML env false ["-n"]) hist
    match r.result with
    | .error e => { trace := r.trace, result := .error e }
    | .ok sets => { trace := r.trace, result := .ok (sets.map (fun s => s.Name)) }

/-- Go `GetReferences`: `List(name, true)`, then `s.Header.References`. -/
def IPSet.GetReferences (set : IPSet) (env : Env) (name : String) : Proc Int :=
  fun hist =>
    let r := (set.List env name true) hist
    match r.result with
    | .error e => { trace := r.trace, result := .error e }
    | .ok s => { trace := r.trace, result := .ok s.Header.References }

/-- The `for _, entry := range entries` loop in Go `Refresh`: adds each
entry with `AddUnique(tempname, entry)` (no options), returning at the
first error. -/
def IPSet.addEntriesUnique (set : IPSet) (env : Env) (tempname : String) : StringList → Proc Unit
  | [] => fun _ => { trace := [], result := .ok () }
  | e :: rest => fun hist =>
    let r := (set.AddUnique env tempname e []) hist
    match r.result with
    | .error msg => { trace := r.trace, result := .error msg }
    | .ok _ =>
      let rs := (IPSet.addEntriesUnique set env tempname rest) (hist ++ r.trace)
      { trace := r.trace ++ rs.trace, result := rs.result }

/-- Go `Refresh`: `tempname := name + "-swptemp"`; `List(name, true)`;
`Create(tempname, s.Type, family/hashsize/maxelem opts)` (its error is
returned wrapped as `"cannot create the temp set for swap: " + err`); the
`AddUnique` loop; `Swap(tempname, name)`; `Destroy(tempname)`; each step
returning its error immediately. -/
def IPSet.Refresh (set : IPSet) (env : Env) (name : String) (entries : StringList) : Proc Unit :=
  fun hist =>
    let tempname := name ++ "-swptemp"
    let r1 := (set.List env name true) hist
    match r1.result with
    | .error e => { trace := r1.trace, result := .error e }
    | .ok s =>
      let opts := ["family", s.Header.Family,
                   "hashsize", formatInt10 s.Header.HashSize,
                   "maxelem", formatInt10 s.Header.Maxelem]
      let r2 := (set.Create env tempname s.«Type» opts) (hist ++ r1.trace)
      match r2.result with
      | .error e =>
        { trace := r1.trace ++ r2.trace,
          result := .error ("cannot create the temp set for swap: " ++ e) }
      | .ok _ =>
        let r3 := (IPSet.addEntriesUnique set env tempname entries) (hist ++ r1.trace ++ r2.trace)
        match r3.result with
        | .error e => { trace := r1.trace ++ r2.trace ++ r3.trace, result := .error e }
        | .ok _ =>
          let r4 := (set.Swap env tempname name) (hist ++ r1.trace ++ r2.trace ++ r3.trace)
          match r4.result with
          | .error e =>
            { trace := r1.trace ++ r2.trace ++ r3.trace ++ r4.trace, result := .error e }
          | .ok _ =>
            let r5 := (set.Destroy env tempname) (hist ++ r1.trace ++ r2.trace ++ r3.trace ++ r4.trace)
            { trace := r1.trace ++ r2.trace ++ r3.trace ++ r4.trace ++ r5.trace,
              result := r5.result }

/-- Sequencing of wrapper computations: run the first; on error stop with
its trace; on success run the continuation with the extended history and
concatenate the traces. -/
def Proc.bind {α β : Type} (x : Proc α) (f : α → Proc β) : Proc β :=
  fun hist =>
    let r := x hist
    match r.result with
    | .error e => { trace := r.trace, result := .error e }
    | .ok a =>
      let r2 := (f a) (hist ++ r.trace)
      { trace := r.trace ++ r2.trace, result := r2.result }

/-- Spec §4.4 step 3, stated with `Proc.bind`: for each supplied entry in
input order, `AddUnique(tempname, entry)`. -/
def addEntriesSpec (set : IPSet) (env : Env) (tempname : String) : List String → Proc Unit
  | [] => fun _ => { trace := [], result := .ok () }
  | e :: rest => Proc.bind (set.AddUnique env tempname e []) (fun _ => addEntriesSpec set env tempname rest)

/-- The five-step sequence of spec §4.4, written as a `Proc.bind` chain of
the wrapper's own operations: (1) `List(name, true)`; (2) `Create` of
`<name>-swptemp` with the target's type and copied family/hashsize/maxelem
options; (3) `AddUnique` of each entry in order; (4) `Swap(tempname, name)`;
(5) `Destroy(tempname)`. -/
def RefreshSpec (set : IPSet) (env : Env) (name : String) (entries : List String) : Proc Unit :=
  Proc.bind (set.List env name true) (fun s =>
    Proc.bind (set.Create env (name ++ "-swptemp") s.«Type»
        ["family", s.Header.Family,
         "hashsize", formatInt10 s.Header.HashSize,
         "maxelem", formatInt10 s.Header.Maxelem]) (fun _ =>
      Proc.bind (addEntriesSpec set env (name ++ "-swptemp") entries) (fun _ =>
        Proc.bind (set.Swap env (name ++ "-swptemp") name) (fun _ =>
          set.Destroy env (name ++ "-swptemp")))))

/-- A concrete executor bound to a fixed binary path, for witnesses. -/
def probe : IPSet := { Path := "/sbin/ipset" }

/-- A concrete decoded set record, for witnesses. -/
def sampleSet : Set :=
  { Name := "t", «Type» := "hash:ip", Revision := "4",
    Header := { Family := "inet", HashSize := 1024, Maxelem := 65536,
                MemSize := 216, References := 0, Numentries := 2 },
    Members := { Members := [{ Elem := "10.0.0.1" }, { Elem := "10.0.0.2" }] } }

/-- An environment where every invocation succeeds silently and decoding
always fails; used for trace-only facts. -/
def envIdle : Env :=
  { world := fun _ _ => { err := none, stdout := "", stderr := "" },
    decode := fun _ => .error "unmarshal error" }

/-- An environment where every invocation exits non-zero with stderr text
`LISTERR`. -/
def envListFail : Env :=
  { world := fun _ _ => { err := some "exit status 1", stdout := "", stderr := "LISTERR" },
    decode := fun _ => .error "unmarshal error" }

/-- An environment where the `list` query for set `t` succeeds and decodes
to one record, and every other invocation exits non-zero with stderr
`boom`. -/
def envCreateFail : Env :=
  { world := fun _ argv =>
      if argv = ["/sbin/ipset", "list", "-o", "xml", "t", "-t"] then
        { err := none, stdout := "OUT", stderr := "" }
      else
        { err := some "exit status 1", stdout := "", stderr := "boom" },
    decode := fun out => if out = "OUT" then .ok { Sets := [sampleSet] } else .error "unmarshal error" }

/-- An environment where every invocation succeeds with stdout `OUT`,
which decodes to a two-record document. -/
def envTwoSets : Env :=
  { world := fun _ _ => { err := none, stdout := "OUT", stderr := "" },
    decode := fun out => if out = "OUT" then .ok { Sets := [sampleSet, sampleSet] } else .error "unmarshal error" }

/-- An environment where every invocation succeeds with stdout `OUT`,
which decodes to a one-record document. -/
def envOneSet : Env :=
  { world := fun _ _ => { err := none, stdout := "OUT", stderr := "" },
    decode := fun out => if out = "OUT" then .ok { Sets := [sampleSet] } else .error "unmarshal error" }

/-- An environment where the binary cannot be started at all: the process
error is non-nil and nothing was written to stderr. -/
def envStartFail : Env :=
  { world := fun _ _ =>
      { err := some "fork/exec /sbin/ipset: no such file or directory",
        stdout := "", stderr := "" },
    decode := fun _ => .error "unmarshal error" }

/-- `run` passes `set.Path :: args` to the OS as the sole invocation. -/
theorem run_trace (set : IPSet) (env : Env) (args : StringList) (hist : List Argv) :
    ((set.run env args) hist).trace = [set.Path :: args] := rfl

/-- `listXML` performs one invocation: `list -o xml`, the extra args, then
`-t` when membership is suppressed. -/
theorem listXML_trace (set : IPSet) (env : Env) (sm : Bool) (extra : StringList) (hist : List Argv) :
    ((set.listXML env sm extra) hist).trace
      = [set.Path :: (["list", "-o", "xml"] ++ extra ++ (if sm then ["-t"] else []))] := by
  simp only [IPSet.listXML, IPSet.runWithOutput]
  cases sm <;> split <;> try split
  all_goals simp

/-- `List` has the same trace as the `listXML` call it makes. -/
theorem list_trace (set : IPSet) (env : Env) (name : String) (sm : Bool) (hist : List Argv) :
    ((set.List env name sm) hist).trace = ((set.listXML env sm [name]) hist).trace := by
  simp only [IPSet.List]
  split <;> try split
  all_goals rfl

/-- `ListEntries` has the same trace as the `List` call it makes. -/
theorem listEntries_trace (set : IPSet) (env : Env) (name : String) (hist : List Argv) :
    ((set.ListEntries env name) hist).trace = ((set.List env name false) hist).trace := by
  simp only [IPSet.ListEntries]
  split
  all_goals rfl

/-- `ListSetNames` has the same trace as the `listXML` call it makes. -/
theorem listSetNames_trace (set : IPSet) (env : Env) (hist : List Argv) :
    ((set.ListSetNames env) hist).trace = ((set.listXML env false ["-n"]) hist).trace := by
  simp only [IPSet.ListSetNames]
  split
  all_goals rfl

/-- `GetReferences` has the same trace as the `List` call it makes. -/
theorem getReferences_trace (set : IPSet) (env : Env) (name : String) (hist : List Argv) :
    ((set.GetReferences env name) hist).trace = ((set.List env name true) hist).trace := by
  simp only [IPSet.GetReferences]
  split
  all_goals rfl

/-- C8: AddUnique invokes the binary with
`add <name> <entry> -exist [opts...]` — the `-exist` flag sits between the
entry and the caller-supplied options. -/
theorem addUnique_argv (set : IPSet) (env : Env) (name entry : String) (options : StringList) (hist : List Argv) :
    ((set.AddUnique env name entry options) hist).trace
      = [set.Path :: "add" :: name :: entry :: "-exist" :: options] := by
  simp [IPSet.AddUnique, run_trace]

/-- C4 counterexample: a membership-suppressed listing of a named set
passes the name BEFORE the `-t` flag, not after it as the claim's order
`list -o xml [-t] [name]` states. -/
theorem listing_argv_order_cex :
    ((probe.List envIdle "foo" true) []).trace
        = [["/sbin/ipset", "list", "-o", "xml", "foo", "-t"]]
    ∧ ((probe.List envIdle "foo" true) []).trace
        ≠ [["/sbin/ipset", "list", "-o", "xml", "-t", "foo"]] :=
  ⟨by decide, by decide⟩

/-- C4 (amended): every listing operation invokes the binary with the
argument list `list -o xml [name | -n] [-t]` — the subcommand `list`,
then `-o xml`, then the set name (or the `-n` flag for ListSetNames) when
given, and the membership-suppression flag `-t` last when requested. -/
theorem listing_argv_order (set : IPSet) (env : Env) (hist : List Argv) :
    (∀ (sm : Bool) (extra : StringList),
      ((set.listXML env sm extra) hist).trace
        = [set.Path :: (["list", "-o", "xml"] ++ extra ++ (if sm then ["-t"] else []))])
    ∧ (∀ (name : String) (sm : Bool),
      ((set.List env name sm) hist).trace
        = [set.Path :: (["list", "-o", "xml", name] ++ (if sm then ["-t"] else []))])
    ∧ (∀ sm : Bool,
      ((set.ListSets env sm) hist).trace
        = [set.Path :: (["list", "-o", "xml"] ++ (if sm then ["-t"] else []))])
    ∧ ((set.ListSetNames env) hist).trace = [[set.Path, "list", "-o", "xml", "-n"]]
    ∧ (∀ name : String,
      ((set.ListEntries env name) hist).trace = [[set.Path, "list", "-o", "xml", name]])
    ∧ (∀ name : String,
      ((set.GetReferences env name) hist).trace
        = [[set.Path, "list", "-o", "xml", name, "-t"]]) := by
  refine ⟨fun sm extra => listXML_trace set env sm extra hist,
          fun name sm => ?_, fun sm => ?_, ?_, fun name => ?_, fun name => ?_⟩
  · rw [list_trace, listXML_trace]; cases sm <;> simp
  · rw [IPSet.ListSets, listXML_trace]; cases sm <;> simp
  · rw [listSetNames_trace, listXML_trace]; simp
  · rw [listEntries_trace, list_trace, listXML_trace]; simp
  · rw [getReferences_trace, list_trace, listXML_trace]; simp

/-- C5 counterexample: ListSetNames appends `-n` AFTER `-o xml`, so the
invocation is `list -o xml -n`, not `list -n -o xml` as claimed. -/
theorem listSetNames_argv_cex :
    ((probe.ListSetNames envIdle) []).trace = [["/sbin/ipset", "list", "-o", "xml", "-n"]]
    ∧ ((probe.ListSetNames envIdle) []).trace ≠ [["/sbin/ipset", "list", "-n", "-o", "xml"]] :=
  ⟨by decide, by decide⟩

/-- C5 (amended): ListSetNames invokes the binary with the argument list
`list -o xml -n` (the name-only flag `-n` appended after `-o xml`),
decodes the XML output, and returns the `name` field of each decoded
record, in decoded order. -/
theorem listSetNames_behavior (set : IPSet) (env : Env) (hist : List Argv) :
    ((set.ListSetNames env) hist).trace = [[set.Path, "list", "-o", "xml", "-n"]]
    ∧ (∀ ss : Sets,
        (env.world hist [set.Path, "list", "-o", "xml", "-n"]).err = none →
        env.decode (env.world hist [set.Path, "list", "-o", "xml", "-n"]).stdout = .ok ss →
        ((set.ListSetNames env) hist).result = .ok (ss.Sets.map (fun s => s.Name))) := by
  constructor
  · rw [listSetNames_trace, listXML_trace]; simp
  · intro ss herr hdec
    simp only [IPSet.ListSetNames, IPSet.listXML, IPSet.runWithOutput] at *
    simp only [if_neg Bool.false_ne_true, List.append_nil] at *
    simp [herr, hdec]

/-- C5 witness: in an environment whose listing decodes to the single
record `sampleSet`, ListSetNames returns `["t"]`. -/
theorem listSetNames_behavior_witness :
    ((probe.ListSetNames envOneSet) []).result = .ok ["t"] :=
  (listSetNames_behavior probe envOneSet []).2 { Sets := [sampleSet] } rfl rfl

/-- C6: Destroy always passes its name argument through verbatim — with
the empty name it invokes `destroy ""` (an empty-string argument), not
the bare `destroy` subcommand that would destroy all sets. -/
theorem destroy_empty_name_arg :
    (∀ (set : IPSet) (env : Env) (name : String) (hist : List Argv),
        ((set.Destroy env name) hist).trace = [[set.Path, "destroy", name]])
    ∧ ((probe.Destroy envIdle "") []).trace = [["/sbin/ipset", "destroy", ""]]
    ∧ ([["/sbin/ipset", "destroy", ""]] : List Argv) ≠ [["/sbin/ipset", "destroy"]] :=
  ⟨fun set env name hist => run_trace set env ["destroy", name] hist, by decide, by decide⟩

/-- C3: List fails with the ambiguous-result error whenever decoding the
listing output yields a record count other than exactly one (zero or
several records both fail), and returns the single decoded record when
the count is exactly one. -/
theorem list_single_record (set : IPSet) (env : Env) (name : String) (sm : Bool) (hist : List Argv) :
    (∀ sets : SetList, ((set.listXML env sm [name]) hist).result = .ok sets →
      sets.length ≠ 1 →
      ((set.List env name sm) hist).result
        = .error "list named set return results not equal one")
    ∧ (∀ s : Set, ((set.listXML env sm [name]) hist).result = .ok [s] →
      ((set.List env name sm) hist).result = .ok s) := by
  constructor
  · intro sets h hne
    simp only [IPSet.List, h]
    rw [dif_neg hne]
  · intro s h
    simp [IPSet.List, h]

/-- C3 witness: a listing that decodes to two records makes List fail with
the ambiguous-result error. -/
theorem list_single_record_witness :
    ((probe.List envTwoSets "t" true) []).result
      = .error "list named set return results not equal one" :=
  (list_single_record probe envTwoSets "t" true []).1 [sampleSet, sampleSet] rfl (by decide)

/-- C7: a non-zero exit (any failing `cmd.Run`) makes the operation fail
with exactly the captured stderr text as the error message; a zero exit
makes `run` (the mutating path) succeed and `runWithOutput` return the
captured stdout. -/
theorem run_error_mapping (set : IPSet) (env : Env) (args : StringList) (hist : List Argv) :
    ((env.world hist (set.Path :: args)).err.isSome = true →
      ((set.run env args) hist).result = .error (env.world hist (set.Path :: args)).stderr)
    ∧ ((env.world hist (set.Path :: args)).err = none →
      ((set.run env args) hist).result = .ok ())
    ∧ ((env.world hist (set.Path :: args)).err.isSome = true →
      ((set.runWithOutput env args) hist).result
        = .error (env.world hist (set.Path :: args)).stderr)
    ∧ ((env.world hist (set.Path :: args)).err = none →
      ((set.runWithOutput env args) hist).result
        = .ok (env.world hist (set.Path :: args)).stdout) := by
  refine ⟨fun h => ?_, fun h => ?_, fun h => ?_, fun h => ?_⟩
  · rcases Option.isSome_iff_exists.mp h with ⟨e, he⟩
    simp [IPSet.run, IPSet.runWithOutput, he]
  · simp [IPSet.run, IPSet.runWithOutput, h]
  · rcases Option.isSome_iff_exists.mp h with ⟨e, he⟩
    simp [IPSet.run, IPSet.runWithOutput, he]
  · simp [IPSet.run, IPSet.runWithOutput, h]

/-- C7 witness: under an environment whose invocations exit non-zero with
stderr `LISTERR`, a mutating operation fails with exactly `LISTERR`. -/
theorem run_error_mapping_witness :
    ((probe.run envListFail ["add", "t", "1.2.3.4"]) []).result = .error "LISTERR" :=
  (run_error_mapping probe envListFail ["add", "t", "1.2.3.4"] []).1 rfl

/-- C9: ListEntries performs exactly the `List(name, false)` invocation
(members not suppressed) and, on success, returns the element strings of
the record's members in decoded order; on failure it propagates the
error. -/
theorem listEntries_projection (set : IPSet) (env : Env) (name : String) (hist : List Argv) :
    ((set.ListEntries env name) hist).trace = ((set.List env name false) hist).trace
    ∧ (∀ s : Set, ((set.List env name false) hist).result = .ok s →
        ((set.ListEntries env name) hist).result
          = .ok (s.Members.Members.map (fun m => m.Elem)))
    ∧ (∀ e : String, ((set.List env name false) hist).result = .error e →
        ((set.ListEntries env name) hist).result = .error e) := by
  refine ⟨listEntries_trace set env name hist, fun s h => ?_, fun e h => ?_⟩ <;>
    simp [IPSet.ListEntries, h]

/-- C9 witness: in an environment whose listing decodes to `sampleSet`,
ListEntries returns that record's two member elements in order. -/
theorem listEntries_projection_witness :
    ((probe.ListEntries envOneSet "t") []).result = .ok ["10.0.0.1", "10.0.0.2"] :=
  (listEntries_projection probe envOneSet "t" []).2.1 sampleSet rfl

/-- C10: on any failing invocation the returned error carries only the
stderr buffer contents (whatever the underlying process error was); in
particular a failure that wrote nothing to stderr — such as a start
failure — yields an error whose message is the empty string. -/
theorem stderr_only_error (set : IPSet) (env : Env) (args : StringList) (hist : List Argv) :
    (∀ e : String, (env.world hist (set.Path :: args)).err = some e →
      ((set.runWithOutput env args) hist).result
          = .error (env.world hist (set.Path :: args)).stderr
      ∧ ((set.run env args) hist).result
          = .error (env.world hist (set.Path :: args)).stderr)
    ∧ (∀ e : String, (env.world hist (set.Path :: args)).err = some e →
        (env.world hist (set.Path :: args)).stderr = "" →
        ((set.run env args) hist).result = .error "") := by
  constructor
  · intro e he
    constructor <;> simp [IPSet.run, IPSet.runWithOutput, he]
  · intro e he hs
    simp [IPSet.run, IPSet.runWithOutput, he, hs]

/-- C10 witness: when the binary cannot be started (process error non-nil,
stderr empty), the operation fails with the empty-string message. -/
theorem stderr_only_error_witness :
    ((probe.run envStartFail ["add", "t", "1.2.3.4"]) []).result = .error "" :=
  (stderr_only_error probe envStartFail ["add", "t", "1.2.3.4"] []).2
    "fork/exec /sbin/ipset: no such file or directory" rfl rfl

/-- The Go `for` loop over entries coincides with the `Proc.bind` folding
of `AddUnique` over the entries in input order. -/
theorem addEntriesUnique_eq_spec (set : IPSet) (env : Env) (tempname : String)
    (entries : StringList) :
    ∀ hist : List Argv,
      (IPSet.addEntriesUnique set env tempname entries) hist
        = (addEntriesSpec set env tempname entries) hist := by
  induction entries with
  | nil => intro hist; rfl
  | cons e rest ih =>
    intro hist
    simp only [IPSet.addEntriesUnique, addEntriesSpec, Proc.bind]
    cases h : ((set.AddUnique env tempname e []) hist).result with
    | error msg => simp [h]
    | ok u => simp [h, ih]

/-- C1: Refresh performs exactly the five-step sequence, in order,
stopping at the first failure: (1) List(name, suppressMembers=true);
(2) Create of `<name>-swptemp` with the target's type and the family,
hashsize and maxelem options copied from the target's header; (3)
AddUnique of each supplied entry in input order; (4) Swap(tempname, name);
(5) Destroy(tempname) — its subprocess invocations are those of the
bind-chained spec sequence. -/
theorem refresh_sequence (set : IPSet) (env : Env) (name : String) (entries : StringList)
    (hist : List Argv) :
    ((set.Refresh env name entries) hist).trace
      = ((RefreshSpec set env name entries) hist).trace := by
  simp only [IPSet.Refresh, RefreshSpec, Proc.bind, addEntriesUnique_eq_spec]
  cases h1 : ((set.List env name true) hist).result with
  | error e => simp [h1]
  | ok s =>
    simp only [h1]
    cases h2 : ((set.Create env (name ++ "-swptemp") s.«Type»
        ["family", s.Header.Family, "hashsize", formatInt10 s.Header.HashSize,
         "maxelem", formatInt10 s.Header.Maxelem])
        (hist ++ ((set.List env name true) hist).trace)).result with
    | error e => simp [h2]
    | ok u2 =>
      simp only [h2]
      cases h3 : ((addEntriesSpec set env (name ++ "-swptemp") entries)
          (hist ++ ((set.List env name true) hist).trace
            ++ ((set.Create env (name ++ "-swptemp") s.«Type»
                  ["family", s.Header.Family, "hashsize", formatInt10 s.Header.HashSize,
                   "maxelem", formatInt10 s.Header.Maxelem])
                (hist ++ ((set.List env name true) hist).trace)).trace)).result with
      | error e => simp [h3, List.append_assoc]
      | ok u3 =>
        simp only [h3]
        cases h4 : ((set.Swap env (name ++ "-swptemp") name)
            (hist ++ ((set.List env name true) hist).trace
              ++ ((set.Create env (name ++ "-swptemp") s.«Type»
                    ["family", s.Header.Family, "hashsize", formatInt10 s.Header.HashSize,
                     "maxelem", formatInt10 s.Header.Maxelem])
                  (hist ++ ((set.List env name true) hist).trace)).trace
              ++ ((addEntriesSpec set env (name ++ "-swptemp") entries)
                  (hist ++ ((set.List env name true) hist).trace
                    ++ ((set.Create env (name ++ "-swptemp") s.«Type»
                          ["family", s.Header.Family, "hashsize", formatInt10 s.Header.HashSize,
                           "maxelem", formatInt10 s.Header.Maxelem])
                        (hist ++ ((set.List env name true) hist).trace)).trace)).trace)).result with
        | error e => simp [h4, List.append_assoc]
        | ok u4 => simp [h4, List.append_assoc]

/-- C2 counterexample: when the temporary-set creation step fails (here
with stderr `boom`), Refresh does not return that step's error — it
returns the error wrapped with the fixed prefix
`cannot create the temp set for swap: `. -/
theorem refresh_create_error_cex :
    ((probe.Create envCreateFail ("t" ++ "-swptemp") "hash:ip"
        ["family", "inet", "hashsize", "1024", "maxelem", "65536"])
      [["/sbin/ipset", "list", "-o", "xml", "t", "-t"]]).result = .error "boom"
    ∧ ((probe.Refresh envCreateFail "t" []) []).result
        = .error "cannot create the temp set for swap: boom"
    ∧ ("cannot create the temp set for swap: boom" : String) ≠ "boom" :=
  ⟨by decide, by decide, by decide⟩

/-- C2 (amended): if any step of Refresh fails, Refresh aborts the
sequence and performs no further subprocess invocations (in particular no
destruction of the temporary set); it returns that step's error to the
caller unchanged for every step except temporary-set creation, whose
error message is wrapped with the prefix
`cannot create the temp set for swap: `.  The last conjunct shows the
entry loop itself stops at its first failing AddUnique. -/
theorem refresh_failure_policy (set : IPSet) (env : Env) (name : String)
    (entries : StringList) (hist : List Argv) :
    (∀ (t1 : List Argv) (e : String),
      (set.List env name true) hist = { trace := t1, result := .error e } →
      (set.Refresh env name entries) hist = { trace := t1, result := .error e })
    ∧ (∀ (t1 t2 : List Argv) (s : Set) (e : String),
      (set.List env name true) hist = { trace := t1, result := .ok s } →
      (set.Create env (name ++ "-swptemp") s.«Type»
          ["family", s.Header.Family, "hashsize", formatInt10 s.Header.HashSize,
           "maxelem", formatInt10 s.Header.Maxelem]) (hist ++ t1)
        = { trace := t2, result := .error e } →
      (set.Refresh env name entries) hist
        = { trace := t1 ++ t2,
            result := .error ("cannot create the temp set for swap: " ++ e) })
    ∧ (∀ (t1 t2 t3 : List Argv) (s : Set) (e : String),
      (set.List env name true) hist = { trace := t1, result := .ok s } →
      (set.Create env (name ++ "-swptemp") s.«Type»
          ["family", s.Header.Family, "hashsize", formatInt10 s.Header.HashSize,
           "maxelem", formatInt10 s.Header.Maxelem]) (hist ++ t1)
        = { trace := t2, result := .ok () } →
      (IPSet.addEntriesUnique set env (name ++ "-swptemp") entries) (hist ++ t1 ++ t2)
        = { trace := t3, result := .error e } →
      (set.Refresh env name entries) hist
        = { trace := t1 ++ t2 ++ t3, result := .error e })
    ∧ (∀ (t1 t2 t3 t4 : List Argv) (s : Set) (e : String),
      (set.List env name true) hist = { trace := t1, result := .ok s } →
      (set.Create env (name ++ "-swptemp") s.«Type»
          ["family", s.Header.Family, "hashsize", formatInt10 s.Header.HashSize,
           "maxelem", formatInt10 s.Header.Maxelem]) (hist ++ t1)
        = { trace := t2, result := .ok () } →
      (IPSet.addEntriesUnique set env (name ++ "-swptemp") entries) (hist ++ t1 ++ t2)
        = { trace := t3, result := .ok () } →
      (set.Swap env (name ++ "-swptemp") name) (hist ++ t1 ++ t2 ++ t3)
        = { trace := t4, result := .error e } →
      (set.Refresh env name entries) hist
        = { trace := t1 ++ t2 ++ t3 ++ t4, result := .error e })
    ∧ (∀ (t1 t2 t3 t4 t5 : List Argv) (s : Set) (e : String),
      (set.List env name true) hist = { trace := t1, result := .ok s } →
      (set.Create env (name ++ "-swptemp") s.«Type»
          ["family", s.Header.Family, "hashsize", formatInt10 s.Header.HashSize,
           "maxelem", formatInt10 s.Header.Maxelem]) (hist ++ t1)
        = { trace := t2, result := .ok () } →
      (IPSet.addEntriesUnique set env (name ++ "-swptemp") entries) (hist ++ t1 ++ t2)
        = { trace := t3, result := .ok () } →
      (set.Swap env (name ++ "-swptemp") name) (hist ++ t1 ++ t2 ++ t3)
        = { trace := t4, result := .ok () } →
      (set.Destroy env (name ++ "-swptemp")) (hist ++ t1 ++ t2 ++ t3 ++ t4)
        = { trace := t5, result := .error e } →
      (set.Refresh env name entries) hist
        = { trace := t1 ++ t2 ++ t3 ++ t4 ++ t5, result := .error e })
    ∧ (∀ (tempname x : String) (rest : StringList) (hist2 t : List Argv) (e : String),
      (set.AddUnique env tempname x []) hist2 = { trace := t, result := .error e } →
      (IPSet.addEntriesUnique set env tempname (x :: rest)) hist2
        = { trace := t, result := .error e }) := by
  refine ⟨?_, ?_, ?_, ?_, ?_, ?_⟩
  · intro t1 e h1
    simp [IPSet.Refresh, h1]
  · intro t1 t2 s e h1 h2
    simp [IPSet.Refresh, h1, h2]
  · intro t1 t2 t3 s e h1 h2 h3
    simp only [List.append_assoc] at h3
    simp [IPSet.Refresh, h1, h2, h3]
  · intro t1 t2 t3 t4 s e h1 h2 h3 h4
    simp only [List.append_assoc] at h3 h4
    simp [IPSet.Refresh, h1, h2, h3, h4]
  · intro t1 t2 t3 t4 t5 s e h1 h2 h3 h4 h5
    simp only [List.append_assoc] at h3 h4 h5
    simp [IPSet.Refresh, h1, h2, h3, h4, h5]
  · intro tempname x rest hist2 t e h
    simp [IPSet.addEntriesUnique, h]

/-- C2 witness: with every invocation failing (stderr `LISTERR`), Refresh
stops after the single List invocation and returns its error. -/
theorem refresh_failure_policy_witness :
    (probe.Refresh envListFail "t" ["1.2.3.4"]) []
      = { trace := [["/sbin/ipset", "list", "-o", "xml", "t", "-t"]],
          result := .error "LISTERR" } :=
  (refresh_failure_policy probe envListFail "t" ["1.2.3.4"] []).1
    [["/sbin/ipset", "list", "-o", "xml", "t", "-t"]] "LISTERR" rfl

end ipset
